import Mathlib

/-!
Verification development for the recognition pipeline of the
Smart-Face-Recognition-System repository, centred on
`deepface/modules/recognition.py` (`find`, `__list_images`,
`__find_bulk_embeddings`).

The embedding below translates the source into Lean:

* Python floats are modelled as rationals (`ℚ`); pickled record fields as a
  sum type `Field`; a raw pickled record (`representation`) is a `List Field`.
* File-system and neural-network effects are inputs of the model:
  `diskImages` is the result of `__list_images`, `imgObjs p` is the list of
  (embedding, region) pairs the `extract_faces` + `represent` pipeline yields
  for a database image `p` (lines 326-345), and `sourceObjs` is the same for
  the query image (lines 194-215).
* The distance module `deepface.commons.distance` is not part of the sources
  under review, so the leaf distance functions `findCosineDistance`,
  `findEuclideanDistance`, `l2_normalize` and the `findThreshold` table are
  abstract parameters (`cosineD`, `euclideanD`, `l2norm`, `threshold`); the
  metric-name dispatch itself (lines 236-246) is translated from the source.
* Python exceptions become an error sum `FindErr`, one constructor per raise
  site of `find`; the spec's taxonomy names each site (ConfigurationError for
  the `db_path` and metric checks, StoreCorruptError for the schema check,
  EmptyDatabaseError for both no-image checks, DimensionMismatchError for the
  embedding-length check).
* `pandas.DataFrame(representations, columns=df_cols)` (line 188) is modelled
  as a strict positional parse of each raw record into the six-column schema.
-/

namespace Recognition

/-- One field of a raw pickled store record: Python strings, embedding
vectors, and region integers as they occur in a `representations` entry. -/
inductive Field where
  | str (s : String)
  | vec (v : List ℚ)
  | int (n : ℤ)
deriving DecidableEq, Repr

/-- A raw store record as deserialized from the pickle file: an untyped list
of fields (the Python side is a plain `list`). -/
abbrev RawRecord := List Field

/-- A parsed six-column store record, the row shape of the dataframe built at
line 188: identity, embedding, and the four target region fields. -/
structure Rep where
  identity : String
  embedding : List ℚ
  x : ℤ
  y : ℤ
  w : ℤ
  h : ℤ
deriving DecidableEq, Repr

/-- One face produced by the detection + representation pipeline for an
image: the embedding vector and the facial region, as consumed at
lines 335-353 (database side) and lines 205-221 (query side). -/
structure FaceObj where
  embedding : List ℚ
  x : ℤ
  y : ℤ
  w : ℤ
  h : ℤ
deriving DecidableEq, Repr

/-- Error outcomes of `find`, one constructor per raise site.
`invalidDbPath` is line 79 (ConfigurationError), `storeCorrupt` is
lines 103-106 (StoreCorruptError, message "Please delete it and re-run"),
`emptyDatabase` covers lines 140 and 160-163 (EmptyDatabaseError),
`dimensionMismatch` is lines 230-234 (DimensionMismatchError, carrying the
query and stored dimensions), `invalidMetric` is line 246
(ConfigurationError), and `dataFrameError` is the pandas constructor at
line 188 rejecting records that do not fit the six-column schema. -/
inductive FindErr where
  | invalidDbPath
  | storeCorrupt
  | emptyDatabase
  | dimensionMismatch (targetDims sourceDims : Nat)
  | invalidMetric (metric : String)
  | dataFrameError
deriving DecidableEq, Repr

/-- The identity field of a raw record: `representation[0]` at line 109 and
`rep[0]` at line 136. The Python expression presupposes a non-empty record;
theorems about stores therefore carry a non-emptiness hypothesis. -/
def rawIdent (r : RawRecord) : Field :=
  r.headD (Field.str "")

/-- Build one store record for one detected face of a database image:
lines 347-354, `[employee, embedding, x, y, w, h]`. -/
def mkInstance (employee : String) (f : FaceObj) : RawRecord :=
  [Field.str employee, Field.vec f.embedding, Field.int f.x, Field.int f.y,
   Field.int f.w, Field.int f.h]

/-- The bulk embedding builder `__find_bulk_embeddings` (lines 291-355): for
each employee image, append one record per face the pipeline detects in it,
in detection order. -/
def find_bulk_embeddings (imgObjs : String → List FaceObj) :
    List String → List RawRecord
  | [] => []
  | e :: rest => (imgObjs e).map (mkInstance e) ++ find_bulk_embeddings imgObjs rest

/-- Schema validation of a freshly deserialized store (lines 102-106):
reject when the store is non-empty and its first record does not have the
six expected columns. -/
def validateStore (records : List RawRecord) : Except FindErr Unit :=
  if 0 < records.length ∧ (records.headD []).length ≠ 6 then
    Except.error FindErr.storeCorrupt
  else
    Except.ok ()

/-- The additions of the incremental sync (line 111): disk paths whose
identity is absent from the store, `list(set(alpha) - set(beta))`.
The Python set has no specified iteration order; the model keeps the disk
enumeration order and removes duplicates. -/
def storeNewbies (records : List RawRecord) (disk : List String) : List String :=
  (disk.filter (fun a => !decide (Field.str a ∈ records.map rawIdent))).dedup

/-- The removals of the incremental sync (line 112): store identities no
longer present on disk, `list(set(beta) - set(alpha))`. -/
def storeOldies (records : List RawRecord) (disk : List String) : List Field :=
  ((records.map rawIdent).filter (fun b => !decide (b ∈ disk.map Field.str))).dedup

/-- The record list after the incremental sync (lines 114-136): append the
bulk embeddings of the additions, then drop every record whose identity is
among the removals. -/
def syncReps (imgObjs : String → List FaceObj) (records : List RawRecord)
    (disk : List String) : List RawRecord :=
  if (storeOldies records disk).isEmpty then
    (if (storeNewbies records disk).isEmpty then records
     else records ++ find_bulk_embeddings imgObjs (storeNewbies records disk))
  else
    (if (storeNewbies records disk).isEmpty then records
     else records ++ find_bulk_embeddings imgObjs (storeNewbies records disk)).filter
      (fun r => !decide (rawIdent r ∈ storeOldies records disk))

/-- Outcome of the store load-or-build stage: the detected additions and
removals, the record list handed to the dataframe, and the record list
written back to the store file (`none` when the file is not rewritten). -/
structure SyncResult where
  newbies : List String
  oldies : List Field
  reps : List RawRecord
  written : Option (List RawRecord)
deriving DecidableEq, Repr

/-- The incremental sync of an existing store (lines 108-151): compute
additions and removals, update the record list, raise EmptyDatabaseError if
changes left the store empty (line 140), and rewrite the store file exactly
when there was at least one addition or removal (lines 138-144). -/
def syncStore (imgObjs : String → List FaceObj) (records : List RawRecord)
    (disk : List String) : Except FindErr SyncResult :=
  if !(storeNewbies records disk).isEmpty || !(storeOldies records disk).isEmpty then
    if (syncReps imgObjs records disk).isEmpty then Except.error FindErr.emptyDatabase
    else Except.ok ⟨storeNewbies records disk, storeOldies records disk,
      syncReps imgObjs records disk, some (syncReps imgObjs records disk)⟩
  else Except.ok ⟨storeNewbies records disk, storeOldies records disk,
    syncReps imgObjs records disk, none⟩

/-- The store stage of `find` (lines 98-184): if a store file exists,
validate and sync it; otherwise enumerate the directory, raise
EmptyDatabaseError when it holds no image (lines 159-163), and build and
persist a fresh store (lines 167-181). -/
def loadOrBuildStore (imgObjs : String → List FaceObj) (storeExists : Bool)
    (records : List RawRecord) (disk : List String) : Except FindErr SyncResult :=
  if storeExists then
    match validateStore records with
    | Except.error e => Except.error e
    | Except.ok _ => syncStore imgObjs records disk
  else if disk.isEmpty then Except.error FindErr.emptyDatabase
  else Except.ok ⟨[], [], find_bulk_embeddings imgObjs disk,
    some (find_bulk_embeddings imgObjs disk)⟩

/-- Positional parse of a raw record into the six-column schema expected by
the dataframe of line 188. -/
def parseRep : RawRecord → Option Rep
  | [Field.str i, Field.vec e, Field.int x, Field.int y, Field.int w, Field.int h] =>
    some ⟨i, e, x, y, w, h⟩
  | _ => none

/-- The dataframe construction of line 188: every record must fit the
six-column schema `df_cols`. -/
def toDataFrame : List RawRecord → Except FindErr (List Rep)
  | [] => Except.ok []
  | r :: rest =>
    match parseRep r with
    | none => Except.error FindErr.dataFrameError
    | some p =>
      match toDataFrame rest with
      | Except.error e => Except.error e
      | Except.ok ps => Except.ok (p :: ps)

/-- Metric dispatch for one record pair (lines 236-246): the three supported
metric names select a distance function; any other name raises
ConfigurationError. The leaf functions live in the external distance module
and are parameters `dc`, `de`, `l2n`. -/
def computeDistance (metric : String) (dc de : List ℚ → List ℚ → ℚ)
    (l2n : List ℚ → List ℚ) (source target : List ℚ) : Except FindErr ℚ :=
  if metric = "cosine" then Except.ok (dc source target)
  else if metric = "euclidean" then Except.ok (de source target)
  else if metric = "euclidean_l2" then Except.ok (de (l2n source) (l2n target))
  else Except.error (FindErr.invalidMetric metric)

/-- The distance loop over the store records (lines 223-248): for each record
in order, first compare embedding lengths and raise DimensionMismatchError on
a difference (lines 227-234), then dispatch on the metric name. -/
def computeDistances (metric : String) (dc de : List ℚ → List ℚ → ℚ)
    (l2n : List ℚ → List ℚ) (target : List ℚ) :
    List Rep → Except FindErr (List ℚ)
  | [] => Except.ok []
  | inst :: rest =>
    if target.length ≠ inst.embedding.length then
      Except.error (FindErr.dimensionMismatch target.length inst.embedding.length)
    else
      match computeDistance metric dc de l2n inst.embedding target with
      | Except.error e => Except.error e
      | Except.ok d =>
        match computeDistances metric dc de l2n target rest with
        | Except.error e => Except.error e
        | Except.ok ds => Except.ok (d :: ds)

/-- One result row (lines 217-221 and 252): identity and target region from
the store record, source region from the detected query face, and the
computed distance; the embedding column is dropped (line 255). -/
structure Row where
  identity : String
  target_x : ℤ
  target_y : ℤ
  target_w : ℤ
  target_h : ℤ
  source_x : ℤ
  source_y : ℤ
  source_w : ℤ
  source_h : ℤ
  distance : ℚ
deriving DecidableEq, Repr

/-- Assemble one result row from a store record, the query face, and their
distance. -/
def mkRow (face : FaceObj) (p : Rep × ℚ) : Row :=
  ⟨p.1.identity, p.1.x, p.1.y, p.1.w, p.1.h, face.x, face.y, face.w, face.h, p.2⟩

/-- Ordering of result rows by the distance column. -/
def rowLE (a b : Row) : Prop := a.distance ≤ b.distance

instance : DecidableRel rowLE := fun a b => inferInstanceAs (Decidable (a.distance ≤ b.distance))

instance : IsTotal Row rowLE := ⟨fun a b => le_total a.distance b.distance⟩

instance : IsTrans Row rowLE := ⟨fun _ _ _ hab hbc => le_trans hab hbc⟩

/-- The per-face result table (lines 205-262): compute all distances against
the store records, attach them as rows, keep the rows with distance at most
the threshold (line 257), and sort ascending by distance (lines 258-260). -/
def matchFace (metric : String) (dc de : List ℚ → List ℚ → ℚ)
    (l2n : List ℚ → List ℚ) (threshold : ℚ) (reps : List Rep)
    (face : FaceObj) : Except FindErr (List Row) :=
  match computeDistances metric dc de l2n face.embedding reps with
  | Except.error e => Except.error e
  | Except.ok ds =>
    let rows := ((reps.zip ds).map (mkRow face)).filter
      (fun row => decide (row.distance ≤ threshold))
    Except.ok (rows.insertionSort rowLE)

/-- The loop over the detected query faces (lines 205-262): one result table
per face, in detection order. -/
def matchTables (metric : String) (dc de : List ℚ → List ℚ → ℚ)
    (l2n : List ℚ → List ℚ) (threshold : ℚ) (reps : List Rep) :
    List FaceObj → Except FindErr (List (List Row))
  | [] => Except.ok []
  | face :: rest =>
    match matchFace metric dc de l2n threshold reps face with
    | Except.error e => Except.error e
    | Except.ok table =>
      match matchTables metric dc de l2n threshold reps rest with
      | Except.error e => Except.error e
      | Except.ok tables => Except.ok (table :: tables)

/-- The external state and external collaborators one `find` call observes:
whether `db_path` is a directory (line 78), whether the store file exists
(line 98), its deserialized contents (line 100), the directory enumeration
(`__list_images`), the detection + representation pipeline for database and
query images, the leaf distance functions of the external distance module,
and the `findThreshold(model_name, distance_metric)` value (line 254). -/
structure FindEnv where
  dbPathIsDir : Bool
  storeExists : Bool
  storedRecords : List RawRecord
  diskImages : List String
  imgObjs : String → List FaceObj
  sourceObjs : List FaceObj
  cosineD : List ℚ → List ℚ → ℚ
  euclideanD : List ℚ → List ℚ → ℚ
  l2norm : List ℚ → List ℚ
  threshold : ℚ

/-- Result of a successful `find` call: the record list written to the store
file during this call (`none` when no write happened) and the result tables,
one per detected query face. -/
structure FindResult where
  written : Option (List RawRecord)
  results : List (List Row)
deriving DecidableEq, Repr

/-- The `find` operation (lines 20-271): check `db_path`, load-or-build the
store, build the dataframe, and produce one filtered sorted result table per
detected face of the query image. -/
def find (metric : String) (env : FindEnv) : Except FindErr FindResult :=
  if env.dbPathIsDir then
    match loadOrBuildStore env.imgObjs env.storeExists env.storedRecords env.diskImages with
    | Except.error e => Except.error e
    | Except.ok s =>
      match toDataFrame s.reps with
      | Except.error e => Except.error e
      | Except.ok df =>
        match matchTables metric env.cosineD env.euclideanD env.l2norm
            env.threshold df env.sourceObjs with
        | Except.error e => Except.error e
        | Except.ok tables => Except.ok ⟨s.written, tables⟩
  else Except.error FindErr.invalidDbPath

/-! Concrete sample data used to evaluate the model on explicit inputs. -/

/-- A query face with a given embedding and zero region. -/
def sampleFace (v : List ℚ) : FaceObj := ⟨v, 0, 0, 0, 0⟩

/-- A well-formed six-column store record with a given identity and
embedding and zero region. -/
def sampleRec (s : String) (v : List ℚ) : RawRecord :=
  [Field.str s, Field.vec v, Field.int 0, Field.int 0, Field.int 0, Field.int 0]

/-- A detection pipeline that finds no face in any database image. -/
def noFaces : String → List FaceObj := fun _ => []

/-- A detection pipeline that finds one face with a given embedding in
every database image. -/
def oneFace (v : List ℚ) : String → List FaceObj := fun _ => [sampleFace v]

/-- A distance function reading off the head of the stored embedding, used
to realize prescribed distance values in examples. -/
def headDist : List ℚ → List ℚ → ℚ := fun s _ => s.headD 0

/-- Environment with an existing store that deserializes to an empty record
list over an image-free directory, one detected query face. -/
def emptyStoreEnv : FindEnv :=
  ⟨true, true, [], [], noFaces, [sampleFace [1]], headDist, fun _ _ => 0, fun v => v, 1⟩

/-- A record with only five columns (the region height is missing). -/
def badRec : RawRecord :=
  [Field.str "B", Field.vec [1], Field.int 0, Field.int 0, Field.int 0]

/-- Environment whose store holds a well-formed first record and a
five-column second record; on disk only the first identity remains. -/
def corruptEnv : FindEnv :=
  ⟨true, true, [sampleRec "A" [1], badRec], ["A"], noFaces, [sampleFace [1]],
   headDist, fun _ _ => 0, fun v => v, 1⟩

/-- Environment with three stored records at distances 1/10, 1/2 and 9/10
from the query under `headDist`, and threshold 2/5. -/
def thresholdEnv : FindEnv :=
  ⟨true, true,
   [sampleRec "A" [mkRat 1 10], sampleRec "B" [mkRat 1 2], sampleRec "C" [mkRat 9 10]],
   ["A", "B", "C"], noFaces, [sampleFace [0]], headDist, fun _ _ => 0, fun v => v,
   mkRat 2 5⟩

/-- Environment whose store was built with length-512 embeddings while the
query face has a length-128 embedding. -/
def dimEnv : FindEnv :=
  ⟨true, true, [sampleRec "A" (List.replicate 512 0)], ["A"], noFaces,
   [sampleFace (List.replicate 128 0)], headDist, fun _ _ => 0, fun v => v, 1⟩

/-- Environment with one stored record whose embedding length matches the
query face's. -/
def metricEnv : FindEnv :=
  ⟨true, true, [sampleRec "A" [0]], ["A"], noFaces, [sampleFace [0]],
   headDist, fun _ _ => 0, fun v => v, 1⟩

/-- Environment with a store holding identity A while the directory holds no
image any more. -/
def removalEnv : FindEnv :=
  ⟨true, true, [sampleRec "A" [1]], [], noFaces, [sampleFace [1]],
   headDist, fun _ _ => 0, fun v => v, 1⟩

/-- Environment whose store's first (and only) record has five columns. -/
def corruptFirstEnv : FindEnv :=
  ⟨true, true, [badRec], ["B"], noFaces, [sampleFace [1]],
   headDist, fun _ _ => 0, fun v => v, 1⟩

/-! Helper lemmas about the embedded operations. -/

/-- The identity of a freshly built record is the employee path. -/
theorem rawIdent_mkInstance (e : String) (f : FaceObj) :
    rawIdent (mkInstance e f) = Field.str e := rfl

/-- Membership characterization of the bulk embedding builder's output. -/
theorem mem_find_bulk_embeddings (imgObjs : String → List FaceObj)
    (es : List String) (r : RawRecord) :
    r ∈ find_bulk_embeddings imgObjs es ↔
      ∃ e ∈ es, ∃ f ∈ imgObjs e, r = mkInstance e f := by
  induction es with
  | nil => simp [find_bulk_embeddings]
  | cons e rest ih =>
    simp only [find_bulk_embeddings, List.mem_append, List.mem_map, ih,
      List.mem_cons]
    constructor
    · rintro (⟨f, hf, rfl⟩ | ⟨e', he', f, hf, rfl⟩)
      · exact ⟨e, Or.inl rfl, f, hf, rfl⟩
      · exact ⟨e', Or.inr he', f, hf, rfl⟩
    · rintro ⟨e', rfl | he', f, hf, rfl⟩
      · exact Or.inl ⟨f, hf, rfl⟩
      · exact Or.inr ⟨e', he', f, hf, rfl⟩

/-- Membership characterization of the computed additions. -/
theorem mem_storeNewbies (records : List RawRecord) (disk : List String)
    (p : String) :
    p ∈ storeNewbies records disk ↔
      p ∈ disk ∧ Field.str p ∉ records.map rawIdent := by
  simp [storeNewbies, List.mem_dedup, List.mem_filter]

/-- Membership characterization of the computed removals. -/
theorem mem_storeOldies (records : List RawRecord) (disk : List String)
    (f : Field) :
    f ∈ storeOldies records disk ↔
      f ∈ records.map rawIdent ∧ f ∉ disk.map Field.str := by
  simp [storeOldies, List.mem_dedup, List.mem_filter]

/-- The branch structure of the sync collapses into one append-and-filter
normal form. -/
theorem syncReps_eq (imgObjs : String → List FaceObj) (records : List RawRecord)
    (disk : List String) :
    syncReps imgObjs records disk =
      (records ++ find_bulk_embeddings imgObjs (storeNewbies records disk)).filter
        (fun r => !decide (rawIdent r ∈ storeOldies records disk)) := by
  unfold syncReps
  by_cases hn : storeNewbies records disk = [] <;>
    by_cases ho : storeOldies records disk = [] <;>
      simp [hn, ho, List.isEmpty_iff, find_bulk_embeddings]

/-- The fields of a successful sync are the computed additions, removals,
synchronized records, and the write marker. -/
theorem syncStore_ok_fields (imgObjs : String → List FaceObj)
    (records : List RawRecord) (disk : List String) (s : SyncResult)
    (hok : syncStore imgObjs records disk = Except.ok s) :
    s.newbies = storeNewbies records disk ∧
    s.oldies = storeOldies records disk ∧
    s.reps = syncReps imgObjs records disk := by
  unfold syncStore at hok
  split at hok
  · split at hok
    · exact absurd hok (by simp)
    · cases hok
      exact ⟨rfl, rfl, rfl⟩
  · cases hok
    exact ⟨rfl, rfl, rfl⟩

/-- Matching against an empty store table yields an empty result table. -/
theorem matchFace_nil_reps (metric : String) (dc de : List ℚ → List ℚ → ℚ)
    (l2n : List ℚ → List ℚ) (thr : ℚ) (face : FaceObj) :
    matchFace metric dc de l2n thr [] face = Except.ok [] := rfl

/-- With an empty store table, every detected query face gets an empty
result table and no error is possible. -/
theorem matchTables_nil_reps (metric : String) (dc de : List ℚ → List ℚ → ℚ)
    (l2n : List ℚ → List ℚ) (thr : ℚ) (faces : List FaceObj) :
    matchTables metric dc de l2n thr [] faces =
      Except.ok (faces.map fun _ => []) := by
  induction faces with
  | nil => rfl
  | cons face rest ih => simp [matchTables, matchFace_nil_reps, ih]

/-- Claim C9: if an existing store file deserializes to an empty record
list, the column-count validation passes, and when the directory also holds
no image, `find` succeeds with no store rewrite and one empty result table
per detected query face. -/
theorem find_empty_store_empty_dir (metric : String) (env : FindEnv)
    (hdir : env.dbPathIsDir = true) (hstore : env.storeExists = true)
    (hrecords : env.storedRecords = []) (hdisk : env.diskImages = []) :
    validateStore env.storedRecords = Except.ok () ∧
    find metric env = Except.ok ⟨none, env.sourceObjs.map (fun _ => [])⟩ := by
  refine ⟨by rw [hrecords]; rfl, ?_⟩
  unfold find
  rw [hdir, hstore, hrecords, hdisk]
  have h1 : loadOrBuildStore env.imgObjs true [] [] = Except.ok ⟨[], [], [], none⟩ := rfl
  rw [if_pos rfl, h1]
  have h2 : toDataFrame ([] : List RawRecord) = Except.ok [] := rfl
  simp only [h2, matchTables_nil_reps]

/-- Witness for claim C9 at a concrete environment. -/
theorem find_empty_store_empty_dir_witness :
    validateStore emptyStoreEnv.storedRecords = Except.ok () ∧
    find "cosine" emptyStoreEnv =
      Except.ok ⟨none, emptyStoreEnv.sourceObjs.map (fun _ => [])⟩ :=
  find_empty_store_empty_dir "cosine" emptyStoreEnv rfl rfl rfl rfl

/-- Bulk records built from employees not containing `e` never carry
identity `e`. -/
theorem filter_bulk_of_not_mem (imgObjs : String → List FaceObj)
    (es : List String) (e : String) (he : e ∉ es) :
    (find_bulk_embeddings imgObjs es).filter
      (fun r => decide (rawIdent r = Field.str e)) = [] := by
  rw [List.filter_eq_nil_iff]
  intro r hr
  obtain ⟨e', he', f, hf, rfl⟩ := (mem_find_bulk_embeddings _ _ _).mp hr
  simp only [rawIdent_mkInstance, decide_eq_true_eq, Field.str.injEq]
  rintro rfl
  exact he he'

/-- Claim C10: for every reference image in which the detector finds k
faces, the bulk embedding builder appends exactly k records all carrying
that image's path as identity, and a removal of that identity during sync
drops all of its records at once. -/
theorem find_bulk_embeddings_per_face (imgObjs : String → List FaceObj)
    (employees : List String) (e : String) (hnodup : employees.Nodup)
    (he : e ∈ employees) :
    ((find_bulk_embeddings imgObjs employees).filter
        (fun r => decide (rawIdent r = Field.str e)) = (imgObjs e).map (mkInstance e))
    ∧ ((find_bulk_embeddings imgObjs employees).filter
        (fun r => decide (rawIdent r = Field.str e))).length = (imgObjs e).length
    ∧ ∀ (records : List RawRecord) (disk : List String),
        Field.str e ∈ storeOldies records disk →
        (syncReps imgObjs records disk).filter
          (fun r => decide (rawIdent r = Field.str e)) = [] := by
  have hpart1 : (find_bulk_embeddings imgObjs employees).filter
      (fun r => decide (rawIdent r = Field.str e)) = (imgObjs e).map (mkInstance e) := by
    induction employees with
    | nil => cases he
    | cons x rest ih =>
      obtain ⟨hx, hrest⟩ := List.nodup_cons.mp hnodup
      rw [show find_bulk_embeddings imgObjs (x :: rest)
          = (imgObjs x).map (mkInstance x) ++ find_bulk_embeddings imgObjs rest from rfl,
        List.filter_append]
      rcases List.mem_cons.mp he with rfl | hmem
      · rw [filter_bulk_of_not_mem imgObjs rest e hx, List.filter_eq_self.mpr,
          List.append_nil]
        intro r hr
        obtain ⟨f, _, rfl⟩ := List.mem_map.mp hr
        simp [rawIdent_mkInstance]
      · have hne : e ≠ x := by rintro rfl; exact hx hmem
        rw [ih hrest hmem]
        have : ((imgObjs x).map (mkInstance x)).filter
            (fun r => decide (rawIdent r = Field.str e)) = [] := by
          rw [List.filter_eq_nil_iff]
          intro r hr
          obtain ⟨f, _, rfl⟩ := List.mem_map.mp hr
          simp only [rawIdent_mkInstance, decide_eq_true_eq, Field.str.injEq]
          rintro rfl
          exact hne rfl
        rw [this, List.nil_append]
  refine ⟨hpart1, by rw [hpart1, List.length_map], ?_⟩
  intro records disk hold
  rw [syncReps_eq, List.filter_filter, List.filter_eq_nil_iff]
  intro r _
  simp only [Bool.and_eq_true, decide_eq_true_eq, Bool.not_eq_true',
    decide_eq_false_iff_not, not_and]
  intro hid
  rw [hid]
  simp [hold]

/-- Witness for claim C10: an image with two detected faces yields two
records under its path, and a removal drops both. -/
theorem find_bulk_embeddings_per_face_witness :
    (["a", "b"] : List String).Nodup ∧ "a" ∈ (["a", "b"] : List String) ∧
    (((find_bulk_embeddings (oneFace [1]) ["a", "b"]).filter
        (fun r => decide (rawIdent r = Field.str "a")) = ((oneFace [1]) "a").map (mkInstance "a"))
    ∧ ((find_bulk_embeddings (oneFace [1]) ["a", "b"]).filter
        (fun r => decide (rawIdent r = Field.str "a"))).length = ((oneFace [1]) "a").length
    ∧ ∀ (records : List RawRecord) (disk : List String),
        Field.str "a" ∈ storeOldies records disk →
        (syncReps (oneFace [1]) records disk).filter
          (fun r => decide (rawIdent r = Field.str "a")) = []) :=
  ⟨by decide, by decide,
   find_bulk_embeddings_per_face (oneFace [1]) ["a", "b"] "a" (by decide) (by decide)⟩

/-- Claim C7: an identity present both in the store and on disk keeps its
records unchanged through the sync; only records of vanished identities are
removed and only records of new identities are appended. -/
theorem syncReps_preserves_surviving (imgObjs : String → List FaceObj)
    (records : List RawRecord) (disk : List String) (p : String)
    (hdisk : p ∈ disk) (hstore : Field.str p ∈ records.map rawIdent) :
    ((syncReps imgObjs records disk).filter
        (fun r => decide (rawIdent r = Field.str p))
      = records.filter (fun r => decide (rawIdent r = Field.str p)))
    ∧ (∀ r ∈ syncReps imgObjs records disk,
        r ∈ records ∨ rawIdent r ∈ (storeNewbies records disk).map Field.str)
    ∧ (∀ r ∈ records, r ∉ syncReps imgObjs records disk →
        rawIdent r ∈ storeOldies records disk) := by
  have hpold : Field.str p ∉ storeOldies records disk := by
    rw [mem_storeOldies]
    rintro ⟨_, hnd⟩
    exact hnd (List.mem_map_of_mem _ hdisk)
  have hpnew : p ∉ storeNewbies records disk := by
    rw [mem_storeNewbies]
    rintro ⟨_, hni⟩
    exact hni hstore
  refine ⟨?_, ?_, ?_⟩
  · rw [syncReps_eq, List.filter_filter, List.filter_append]
    have hbulk : (find_bulk_embeddings imgObjs (storeNewbies records disk)).filter
        (fun a => decide (rawIdent a = Field.str p)
          && !decide (rawIdent a ∈ storeOldies records disk)) = [] := by
      rw [List.filter_eq_nil_iff]
      intro r hr
      obtain ⟨n, hn, f, hf, rfl⟩ := (mem_find_bulk_embeddings _ _ _).mp hr
      simp only [rawIdent_mkInstance, Bool.and_eq_true, decide_eq_true_eq,
        Field.str.injEq, not_and]
      rintro rfl
      exact absurd hn hpnew
    rw [hbulk, List.append_nil]
    apply List.filter_congr
    intro r _
    by_cases hid : rawIdent r = Field.str p
    · simp [hid, hpold]
    · simp [hid]
  · intro r hr
    rw [syncReps_eq] at hr
    rcases List.mem_append.mp (List.mem_filter.mp hr).1 with hrec | hbulk
    · exact Or.inl hrec
    · obtain ⟨n, hn, f, hf, rfl⟩ := (mem_find_bulk_embeddings _ _ _).mp hbulk
      exact Or.inr (by rw [rawIdent_mkInstance]; exact List.mem_map_of_mem _ hn)
  · intro r hr hnot
    by_contra hcon
    apply hnot
    rw [syncReps_eq, List.mem_filter]
    exact ⟨List.mem_append.mpr (Or.inl hr), by simp [hcon]⟩

/-- Witness for claim C7 at a concrete store and directory. -/
theorem syncReps_preserves_surviving_witness :
    "A" ∈ (["A", "C"] : List String) ∧
    Field.str "A" ∈ ([sampleRec "A" [1], sampleRec "B" [2]].map rawIdent) ∧
    (((syncReps (oneFace [3]) [sampleRec "A" [1], sampleRec "B" [2]] ["A", "C"]).filter
        (fun r => decide (rawIdent r = Field.str "A"))
      = [sampleRec "A" [1], sampleRec "B" [2]].filter
          (fun r => decide (rawIdent r = Field.str "A")))
    ∧ (∀ r ∈ syncReps (oneFace [3]) [sampleRec "A" [1], sampleRec "B" [2]] ["A", "C"],
        r ∈ [sampleRec "A" [1], sampleRec "B" [2]]
        ∨ rawIdent r ∈ (storeNewbies [sampleRec "A" [1], sampleRec "B" [2]] ["A", "C"]).map Field.str)
    ∧ (∀ r ∈ [sampleRec "A" [1], sampleRec "B" [2]],
        r ∉ syncReps (oneFace [3]) [sampleRec "A" [1], sampleRec "B" [2]] ["A", "C"] →
        rawIdent r ∈ storeOldies [sampleRec "A" [1], sampleRec "B" [2]] ["A", "C"])) :=
  ⟨by decide, by decide,
   syncReps_preserves_surviving (oneFace [3]) [sampleRec "A" [1], sampleRec "B" [2]]
     ["A", "C"] "A" (by decide) (by decide)⟩

/-- Claim C1: a successful incremental sync computes additions as exactly
the disk paths absent from the store identities, removals as exactly the
store identities absent on disk, and leaves the store's identity set equal
to the set of image paths on disk; the pipeline hypothesis says every disk
image yields at least one face, which `extract_faces` guarantees on every
run it does not abort (enforced detection aborts on a face-free image, and
unenforced detection falls back to the full frame as one face). -/
theorem syncStore_additions_removals_final (imgObjs : String → List FaceObj)
    (records : List RawRecord) (disk : List String) (s : SyncResult)
    (hfaces : ∀ p ∈ disk, imgObjs p ≠ [])
    (hok : syncStore imgObjs records disk = Except.ok s) :
    (∀ p, p ∈ s.newbies ↔ p ∈ disk ∧ Field.str p ∉ records.map rawIdent)
    ∧ (∀ f, f ∈ s.oldies ↔ f ∈ records.map rawIdent ∧ f ∉ disk.map Field.str)
    ∧ (∀ f, f ∈ s.reps.map rawIdent ↔ f ∈ disk.map Field.str) := by
  obtain ⟨hn, ho, hr⟩ := syncStore_ok_fields _ _ _ _ hok
  refine ⟨fun p => by rw [hn]; exact mem_storeNewbies _ _ _,
    fun f => by rw [ho]; exact mem_storeOldies _ _ _, ?_⟩
  intro f
  rw [hr, syncReps_eq]
  constructor
  · intro hf
    obtain ⟨r, hrm, rfl⟩ := List.mem_map.mp hf
    obtain ⟨hrm, hq⟩ := List.mem_filter.mp hrm
    have hnold : rawIdent r ∉ storeOldies records disk := by simpa using hq
    rcases List.mem_append.mp hrm with hrec | hbulk
    · by_contra hnd
      exact hnold ((mem_storeOldies _ _ _).mpr ⟨List.mem_map_of_mem _ hrec, hnd⟩)
    · obtain ⟨n, hn', f', hf', rfl⟩ := (mem_find_bulk_embeddings _ _ _).mp hbulk
      rw [rawIdent_mkInstance]
      exact List.mem_map_of_mem _ ((mem_storeNewbies _ _ _).mp hn').1
  · intro hf
    obtain ⟨q, hq, rfl⟩ := List.mem_map.mp hf
    have hqold : Field.str q ∉ storeOldies records disk := by
      rw [mem_storeOldies]
      rintro ⟨_, hnd⟩
      exact hnd (List.mem_map_of_mem _ hq)
    by_cases hin : Field.str q ∈ records.map rawIdent
    · obtain ⟨r, hrm, hr'⟩ := List.mem_map.mp hin
      refine List.mem_map.mpr ⟨r, List.mem_filter.mpr ⟨List.mem_append.mpr (Or.inl hrm), ?_⟩, hr'⟩
      simp [hr', hqold]
    · have hqnew : q ∈ storeNewbies records disk := (mem_storeNewbies _ _ _).mpr ⟨hq, hin⟩
      obtain ⟨f', hf'⟩ := List.exists_mem_of_ne_nil _ (hfaces q hq)
      refine List.mem_map.mpr ⟨mkInstance q f', List.mem_filter.mpr ⟨?_, ?_⟩, rawIdent_mkInstance _ _⟩
      · exact List.mem_append.mpr
          (Or.inr ((mem_find_bulk_embeddings _ _ _).mpr ⟨q, hqnew, f', hf', rfl⟩))
      · simp [rawIdent_mkInstance, hqold]

/-- Witness for claim C1 at the spec's example: store identities A and B,
disk B and C. -/
theorem syncStore_additions_removals_final_witness :
    (∀ p ∈ (["B", "C"] : List String), oneFace [1] p ≠ []) ∧
    syncStore (oneFace [1]) [sampleRec "A" [7], sampleRec "B" [8]] ["B", "C"]
      = Except.ok ⟨["C"], [Field.str "A"],
          [sampleRec "B" [8], mkInstance "C" (sampleFace [1])],
          some [sampleRec "B" [8], mkInstance "C" (sampleFace [1])]⟩ ∧
    ((∀ p, p ∈ (["C"] : List String) ↔ p ∈ (["B", "C"] : List String) ∧
        Field.str p ∉ ([sampleRec "A" [7], sampleRec "B" [8]].map rawIdent))
    ∧ (∀ f, f ∈ ([Field.str "A"] : List Field) ↔
        f ∈ ([sampleRec "A" [7], sampleRec "B" [8]].map rawIdent) ∧
        f ∉ (["B", "C"].map Field.str))
    ∧ (∀ f, f ∈ ([sampleRec "B" [8], mkInstance "C" (sampleFace [1])].map rawIdent) ↔
        f ∈ (["B", "C"].map Field.str))) :=
  ⟨fun p _ => by simp [oneFace], rfl,
   syncStore_additions_removals_final (oneFace [1])
     [sampleRec "A" [7], sampleRec "B" [8]] ["B", "C"]
     ⟨["C"], [Field.str "A"],
      [sampleRec "B" [8], mkInstance "C" (sampleFace [1])],
      some [sampleRec "B" [8], mkInstance "C" (sampleFace [1])]⟩
     (fun p _ => by simp [oneFace]) rfl⟩

/-- Claim C3: when the directory's image set is unchanged, the sync detects
no additions and no removals and does not rewrite the store file; and on any
successful sync the store file is rewritten exactly when at least one
addition or removal occurred. -/
theorem syncStore_unchanged_no_rewrite (imgObjs : String → List FaceObj)
    (records : List RawRecord) (disk : List String) :
    ((∀ f, f ∈ records.map rawIdent ↔ f ∈ disk.map Field.str) →
      syncStore imgObjs records disk = Except.ok ⟨[], [], records, none⟩)
    ∧ (∀ s, syncStore imgObjs records disk = Except.ok s →
        (s.written ≠ none ↔ (s.newbies ≠ [] ∨ s.oldies ≠ []))) := by
  constructor
  · intro hsame
    have hn : storeNewbies records disk = [] := by
      rw [List.eq_nil_iff_forall_not_mem]
      intro p hp
      obtain ⟨hp1, hp2⟩ := (mem_storeNewbies _ _ _).mp hp
      exact hp2 ((hsame _).mpr (List.mem_map_of_mem _ hp1))
    have ho : storeOldies records disk = [] := by
      rw [List.eq_nil_iff_forall_not_mem]
      intro f hf
      obtain ⟨hf1, hf2⟩ := (mem_storeOldies _ _ _).mp hf
      exact hf2 ((hsame _).mp hf1)
    have hreps : syncReps imgObjs records disk = records := by
      unfold syncReps
      simp [hn, ho]
    unfold syncStore
    simp [hn, ho, hreps]
  · intro s hok
    unfold syncStore at hok
    by_cases hc : (!(storeNewbies records disk).isEmpty
        || !(storeOldies records disk).isEmpty) = true
    · rw [if_pos hc] at hok
      by_cases hre : (syncReps imgObjs records disk).isEmpty = true
      · rw [if_pos hre] at hok
        exact absurd hok (by simp)
      · rw [if_neg hre] at hok
        cases hok
        simp only [Bool.or_eq_true, Bool.not_eq_true'] at hc
        constructor
        · intro _
          rcases hc with h | h
          · refine Or.inl (fun hnil => ?_)
            dsimp only at hnil
            rw [hnil] at h
            simp at h
          · refine Or.inr (fun hnil => ?_)
            dsimp only at hnil
            rw [hnil] at h
            simp at h
        · intro _
          simp
    · rw [if_neg hc] at hok
      cases hok
      simp only [Bool.or_eq_true, not_or, Bool.not_eq_true'] at hc
      push_neg at hc
      constructor
      · intro hw
        exact absurd rfl hw
      · rintro (h | h)
        · exact absurd (by simpa [List.isEmpty_iff] using hc.1) h
        · exact absurd (by simpa [List.isEmpty_iff] using hc.2) h

/-- Witness for claim C3 at a concrete unchanged directory. -/
theorem syncStore_unchanged_no_rewrite_witness :
    (∀ f, f ∈ ([sampleRec "A" [1]].map rawIdent) ↔ f ∈ (["A"].map Field.str)) ∧
    syncStore (oneFace [1]) [sampleRec "A" [1]] ["A"]
      = Except.ok ⟨[], [], [sampleRec "A" [1]], none⟩ :=
  ⟨fun _ => Iff.rfl,
   (syncStore_unchanged_no_rewrite (oneFace [1]) [sampleRec "A" [1]] ["A"]).1 (fun _ => Iff.rfl)⟩

/-- A successful per-face match is the threshold-filtered row list of the
computed distances, sorted by the distance column. -/
theorem matchFace_ok_spec (metric : String) (dc de : List ℚ → List ℚ → ℚ)
    (l2n : List ℚ → List ℚ) (thr : ℚ) (reps : List Rep) (face : FaceObj)
    (rows : List Row)
    (hok : matchFace metric dc de l2n thr reps face = Except.ok rows) :
    ∃ ds, computeDistances metric dc de l2n face.embedding reps = Except.ok ds
      ∧ rows.Perm (((reps.zip ds).map (mkRow face)).filter
          (fun row => decide (row.distance ≤ thr)))
      ∧ rows.Sorted rowLE := by
  unfold matchFace at hok
  rcases hds : computeDistances metric dc de l2n face.embedding reps with e | ds
  · rw [hds] at hok
    exact absurd hok (by simp)
  · rw [hds] at hok
    cases hok
    exact ⟨ds, rfl, List.perm_insertionSort _ _, List.sorted_insertionSort _ _⟩

/-- Every table of a successful face loop comes from a successful per-face
match of one of the detected faces. -/
theorem matchTables_ok_mem (metric : String) (dc de : List ℚ → List ℚ → ℚ)
    (l2n : List ℚ → List ℚ) (thr : ℚ) (reps : List Rep) (faces : List FaceObj)
    (tables : List (List Row))
    (hok : matchTables metric dc de l2n thr reps faces = Except.ok tables) :
    ∀ T ∈ tables, ∃ face ∈ faces, matchFace metric dc de l2n thr reps face = Except.ok T := by
  induction faces generalizing tables with
  | nil =>
    cases hok
    intro T hT
    cases hT
  | cons face rest ih =>
    unfold matchTables at hok
    rcases hface : matchFace metric dc de l2n thr reps face with e | table
    · rw [hface] at hok
      exact absurd hok (by simp)
    · rw [hface] at hok
      rcases hrest : matchTables metric dc de l2n thr reps rest with e | tables'
      · rw [hrest] at hok
        exact absurd hok (by simp)
      · rw [hrest] at hok
        cases hok
        intro T hT
        rcases List.mem_cons.mp hT with rfl | hT'
        · exact ⟨face, List.mem_cons_self _ _, hface⟩
        · obtain ⟨f', hf', hm⟩ := ih _ hrest T hT'
          exact ⟨f', List.mem_cons_of_mem _ hf', hm⟩

/-- Claim C2: each result table of a successful `find` call contains exactly
the store records whose computed distance to the query embedding is at most
the threshold, sorted ascending by the distance column. -/
theorem find_tables_filtered_sorted (metric : String) (env : FindEnv)
    (res : FindResult) (hok : find metric env = Except.ok res) :
    ∃ s df,
      loadOrBuildStore env.imgObjs env.storeExists env.storedRecords env.diskImages
        = Except.ok s
      ∧ toDataFrame s.reps = Except.ok df
      ∧ ∀ T ∈ res.results, ∃ face ∈ env.sourceObjs, ∃ ds,
          computeDistances metric env.cosineD env.euclideanD env.l2norm
            face.embedding df = Except.ok ds
          ∧ T.Perm (((df.zip ds).map (mkRow face)).filter
              (fun row => decide (row.distance ≤ env.threshold)))
          ∧ T.Sorted rowLE := by
  unfold find at hok
  by_cases hdir : env.dbPathIsDir = true
  · rw [if_pos hdir] at hok
    rcases hload : loadOrBuildStore env.imgObjs env.storeExists env.storedRecords
        env.diskImages with e | s
    · rw [hload] at hok
      exact absurd hok (by simp)
    · rw [hload] at hok
      dsimp only at hok
      rcases hdf : toDataFrame s.reps with e | df
      · rw [hdf] at hok
        exact absurd hok (by simp)
      · rw [hdf] at hok
        dsimp only at hok
        rcases htab : matchTables metric env.cosineD env.euclideanD env.l2norm
            env.threshold df env.sourceObjs with e | tables
        · rw [htab] at hok
          exact absurd hok (by simp)
        · rw [htab] at hok
          dsimp only at hok
          cases hok
          refine ⟨s, df, rfl, hdf, ?_⟩
          intro T hT
          obtain ⟨face, hface, hm⟩ :=
            matchTables_ok_mem _ _ _ _ _ _ _ _ htab T hT
          obtain ⟨ds, hds, hperm, hsort⟩ := matchFace_ok_spec _ _ _ _ _ _ _ _ hm
          exact ⟨face, hface, ds, hds, hperm, hsort⟩
  · rw [if_neg hdir] at hok
    exact absurd hok (by simp)

/-- Witness for claim C2 at the spec's example: stored distances 1/10, 1/2
and 9/10 with threshold 2/5, where exactly the record at distance 1/10
survives. -/
theorem find_tables_filtered_sorted_witness :
    find "cosine" thresholdEnv
      = Except.ok ⟨none, [[⟨"A", 0, 0, 0, 0, 0, 0, 0, 0, mkRat 1 10⟩]]⟩ ∧
    (∃ s df,
      loadOrBuildStore thresholdEnv.imgObjs thresholdEnv.storeExists
          thresholdEnv.storedRecords thresholdEnv.diskImages = Except.ok s
      ∧ toDataFrame s.reps = Except.ok df
      ∧ ∀ T ∈ (⟨none, [[⟨"A", 0, 0, 0, 0, 0, 0, 0, 0, mkRat 1 10⟩]]⟩ : FindResult).results,
          ∃ face ∈ thresholdEnv.sourceObjs, ∃ ds,
            computeDistances "cosine" thresholdEnv.cosineD thresholdEnv.euclideanD
              thresholdEnv.l2norm face.embedding df = Except.ok ds
            ∧ T.Perm (((df.zip ds).map (mkRow face)).filter
                (fun row => decide (row.distance ≤ thresholdEnv.threshold)))
            ∧ T.Sorted rowLE) :=
  ⟨rfl, find_tables_filtered_sorted "cosine" thresholdEnv
    ⟨none, [[⟨"A", 0, 0, 0, 0, 0, 0, 0, 0, mkRat 1 10⟩]]⟩ rfl⟩

/-- Counterexample to claim C4 as stated: the load validation inspects only
the first record, so a store whose second record has the wrong column count
passes validation, and `find` completes successfully — the malformed record
is even silently dropped by the sync because its identity is not on disk. -/
theorem find_corrupt_second_record_ok :
    (∃ r ∈ corruptEnv.storedRecords, r.length ≠ 6) ∧
    find "cosine" corruptEnv
      = Except.ok ⟨some [sampleRec "A" [1]], [[⟨"A", 0, 0, 0, 0, 0, 0, 0, 0, 1⟩]]⟩ :=
  ⟨by decide, rfl⟩

/-- Claim C4 (amended): when an existing store deserializes to a non-empty
record list whose FIRST record's column count differs from the expected
six-column schema, `find` fails with StoreCorruptError (whose message
instructs deletion and re-run) and the store is never silently migrated. -/
theorem find_storeCorrupt_first_record (metric : String) (env : FindEnv)
    (hdir : env.dbPathIsDir = true) (hstore : env.storeExists = true)
    (hne : env.storedRecords ≠ [])
    (hbad : (env.storedRecords.headD []).length ≠ 6) :
    find metric env = Except.error FindErr.storeCorrupt := by
  unfold find
  rw [hdir, if_pos rfl]
  unfold loadOrBuildStore
  rw [hstore, if_pos rfl]
  unfold validateStore
  rw [if_pos ⟨List.length_pos.mpr hne, hbad⟩]

/-- Witness for claim C4 (amended) at a concrete store whose first record
has five columns. -/
theorem find_storeCorrupt_first_record_witness :
    corruptFirstEnv.storedRecords ≠ [] ∧
    (corruptFirstEnv.storedRecords.headD []).length ≠ 6 ∧
    find "cosine" corruptFirstEnv = Except.error FindErr.storeCorrupt :=
  ⟨by decide, by decide,
   find_storeCorrupt_first_record "cosine" corruptFirstEnv rfl rfl (by decide) (by decide)⟩

/-- With a supported metric name, the dispatch always yields a distance. -/
theorem computeDistance_supported (metric : String) (dc de : List ℚ → List ℚ → ℚ)
    (l2n : List ℚ → List ℚ) (s t : List ℚ)
    (hm : metric = "cosine" ∨ metric = "euclidean" ∨ metric = "euclidean_l2") :
    ∃ d, computeDistance metric dc de l2n s t = Except.ok d := by
  rcases hm with rfl | rfl | rfl
  · exact ⟨dc s t, rfl⟩
  · exact ⟨de s t, rfl⟩
  · exact ⟨de (l2n s) (l2n t), rfl⟩

/-- With a supported metric, the only error the distance loop can raise is a
dimension mismatch between two distinct lengths. -/
theorem computeDistances_error_supported (metric : String)
    (dc de : List ℚ → List ℚ → ℚ) (l2n : List ℚ → List ℚ) (target : List ℚ)
    (reps : List Rep) (e : FindErr)
    (hm : metric = "cosine" ∨ metric = "euclidean" ∨ metric = "euclidean_l2")
    (herr : computeDistances metric dc de l2n target reps = Except.error e) :
    ∃ a b, e = FindErr.dimensionMismatch a b ∧ a ≠ b := by
  induction reps with
  | nil => exact absurd herr (by simp [computeDistances])
  | cons inst rest ih =>
    unfold computeDistances at herr
    by_cases hlen : target.length ≠ inst.embedding.length
    · rw [if_pos hlen] at herr
      cases herr
      exact ⟨target.length, inst.embedding.length, rfl, hlen⟩
    · rw [if_neg hlen] at herr
      obtain ⟨d, hd⟩ := computeDistance_supported metric dc de l2n inst.embedding target hm
      rw [hd] at herr
      dsimp only at herr
      rcases hrec : computeDistances metric dc de l2n target rest with e' | ds
      · rw [hrec] at herr
        cases herr
        exact ih hrec
      · rw [hrec] at herr
        exact absurd herr (by simp)

/-- If some record's embedding length differs from the query's, the distance
loop under a supported metric fails with a dimension mismatch. -/
theorem computeDistances_mismatch (metric : String)
    (dc de : List ℚ → List ℚ → ℚ) (l2n : List ℚ → List ℚ) (target : List ℚ)
    (reps : List Rep) (r : Rep)
    (hm : metric = "cosine" ∨ metric = "euclidean" ∨ metric = "euclidean_l2")
    (hr : r ∈ reps) (hlen : r.embedding.length ≠ target.length) :
    ∃ a b, computeDistances metric dc de l2n target reps
      = Except.error (FindErr.dimensionMismatch a b) ∧ a ≠ b := by
  induction reps with
  | nil => cases hr
  | cons inst rest ih =>
    by_cases hl : target.length ≠ inst.embedding.length
    · exact ⟨target.length, inst.embedding.length,
        by unfold computeDistances; rw [if_pos hl], hl⟩
    · push_neg at hl
      have hr' : r ∈ rest := by
        rcases List.mem_cons.mp hr with rfl | h
        · exact absurd hl.symm hlen
        · exact h
      obtain ⟨a, b, hab, hne⟩ := ih hr'
      obtain ⟨d, hd⟩ := computeDistance_supported metric dc de l2n inst.embedding target hm
      refine ⟨a, b, ?_, hne⟩
      unfold computeDistances
      rw [if_neg (not_not_intro hl), hd]
      dsimp only
      rw [hab]

/-- With a supported metric, every per-face match error is a dimension
mismatch between two distinct lengths. -/
theorem matchFace_error_supported (metric : String)
    (dc de : List ℚ → List ℚ → ℚ) (l2n : List ℚ → List ℚ) (thr : ℚ)
    (reps : List Rep) (face : FaceObj) (e : FindErr)
    (hm : metric = "cosine" ∨ metric = "euclidean" ∨ metric = "euclidean_l2")
    (herr : matchFace metric dc de l2n thr reps face = Except.error e) :
    ∃ a b, e = FindErr.dimensionMismatch a b ∧ a ≠ b := by
  unfold matchFace at herr
  rcases hds : computeDistances metric dc de l2n face.embedding reps with e' | ds
  · rw [hds] at herr
    cases herr
    exact computeDistances_error_supported _ _ _ _ _ _ _ hm hds
  · rw [hds] at herr
    exact absurd herr (by simp)

/-- A dimension-mismatch failure of one detected face's match propagates to
a dimension-mismatch failure of the whole face loop. -/
theorem matchTables_mismatch (metric : String)
    (dc de : List ℚ → List ℚ → ℚ) (l2n : List ℚ → List ℚ) (thr : ℚ)
    (reps : List Rep) (faces : List FaceObj) (face : FaceObj)
    (hm : metric = "cosine" ∨ metric = "euclidean" ∨ metric = "euclidean_l2")
    (hface : face ∈ faces)
    (hfe : ∃ a b, matchFace metric dc de l2n thr reps face
      = Except.error (FindErr.dimensionMismatch a b) ∧ a ≠ b) :
    ∃ a b, matchTables metric dc de l2n thr reps faces
      = Except.error (FindErr.dimensionMismatch a b) ∧ a ≠ b := by
  induction faces with
  | nil => cases hface
  | cons f0 rest ih =>
    rcases List.mem_cons.mp hface with rfl | hmem
    · obtain ⟨a, b, hab, hne⟩ := hfe
      exact ⟨a, b, by unfold matchTables; rw [hab], hne⟩
    · rcases hf0 : matchFace metric dc de l2n thr reps f0 with e | table
      · obtain ⟨a, b, hab, hne⟩ := matchFace_error_supported _ _ _ _ _ _ _ _ hm hf0
        refine ⟨a, b, ?_, hne⟩
        unfold matchTables
        rw [hf0]
        dsimp only
        rw [hab]
      · obtain ⟨a, b, hab, hne⟩ := ih hmem
        refine ⟨a, b, ?_, hne⟩
        unfold matchTables
        rw [hf0]
        dsimp only
        rw [hab]

/-- Claim C6: under a supported metric, if a stored record's embedding
length differs from the query embedding's length, `find` fails with
DimensionMismatchError — no distance is computed for that pair, the loop
aborts at the first mismatching record instead. -/
theorem find_dimension_mismatch (metric : String) (env : FindEnv)
    (s : SyncResult) (df : List Rep) (face : FaceObj) (r : Rep)
    (hm : metric = "cosine" ∨ metric = "euclidean" ∨ metric = "euclidean_l2")
    (hdir : env.dbPathIsDir = true)
    (hload : loadOrBuildStore env.imgObjs env.storeExists env.storedRecords
      env.diskImages = Except.ok s)
    (hdf : toDataFrame s.reps = Except.ok df)
    (hface : face ∈ env.sourceObjs)
    (hr : r ∈ df) (hlen : r.embedding.length ≠ face.embedding.length) :
    ∃ a b, find metric env = Except.error (FindErr.dimensionMismatch a b) ∧ a ≠ b := by
  have hfe : ∃ a b, matchFace metric env.cosineD env.euclideanD env.l2norm
      env.threshold df face = Except.error (FindErr.dimensionMismatch a b) ∧ a ≠ b := by
    obtain ⟨a, b, hab, hne⟩ :=
      computeDistances_mismatch metric env.cosineD env.euclideanD env.l2norm
        face.embedding df r hm hr hlen
    exact ⟨a, b, by unfold matchFace; rw [hab], hne⟩
  obtain ⟨a, b, htab, hne⟩ :=
    matchTables_mismatch metric env.cosineD env.euclideanD env.l2norm
      env.threshold df env.sourceObjs face hm hface hfe
  refine ⟨a, b, ?_, hne⟩
  unfold find
  rw [hdir, if_pos rfl, hload]
  dsimp only
  rw [hdf]
  dsimp only
  rw [htab]

set_option maxRecDepth 100000 in
/-- Witness for claim C6 at the spec's example: a length-128 query embedding
against a store built with length-512 embeddings. -/
theorem find_dimension_mismatch_witness :
    loadOrBuildStore dimEnv.imgObjs dimEnv.storeExists dimEnv.storedRecords
        dimEnv.diskImages
      = Except.ok ⟨[], [], [sampleRec "A" (List.replicate 512 0)], none⟩ ∧
    toDataFrame [sampleRec "A" (List.replicate 512 0)]
      = Except.ok [⟨"A", List.replicate 512 0, 0, 0, 0, 0⟩] ∧
    ((⟨"A", List.replicate 512 0, 0, 0, 0, 0⟩ : Rep)).embedding.length
      ≠ (sampleFace (List.replicate 128 0)).embedding.length ∧
    (∃ a b, find "cosine" dimEnv
      = Except.error (FindErr.dimensionMismatch a b) ∧ a ≠ b) :=
  ⟨rfl, rfl, by decide,
   find_dimension_mismatch "cosine" dimEnv
     ⟨[], [], [sampleRec "A" (List.replicate 512 0)], none⟩
     [⟨"A", List.replicate 512 0, 0, 0, 0, 0⟩]
     (sampleFace (List.replicate 128 0))
     ⟨"A", List.replicate 512 0, 0, 0, 0, 0⟩
     (Or.inl rfl) rfl rfl rfl (List.mem_cons_self _ _) (List.mem_cons_self _ _)
     (by decide)⟩

/-- Counterexample to claim C8 as stated: with an unsupported metric name,
`find` still succeeds whenever the store table is empty, because the metric
dispatch sits inside the per-record distance loop, which never runs — the
metric name is not validated up front. -/
theorem find_invalid_metric_empty_store_ok :
    ("manhattan" ≠ "cosine" ∧ "manhattan" ≠ "euclidean"
      ∧ "manhattan" ≠ "euclidean_l2") ∧
    find "manhattan" emptyStoreEnv = Except.ok ⟨none, [[]]⟩ :=
  ⟨by decide, rfl⟩

/-- Claim C8 (amended): a distance-metric name outside the supported set
makes `find` fail with ConfigurationError provided the distance loop runs at
least once, i.e. at least one query face is detected and the store table is
non-empty with its first record's embedding length matching the query's (a
first-record length mismatch raises DimensionMismatchError instead). -/
theorem find_invalidMetric_nonempty (metric : String) (env : FindEnv)
    (s : SyncResult) (df : List Rep) (face : FaceObj) (rest : List FaceObj)
    (r : Rep) (tl : List Rep)
    (hdir : env.dbPathIsDir = true)
    (hm1 : metric ≠ "cosine") (hm2 : metric ≠ "euclidean")
    (hm3 : metric ≠ "euclidean_l2")
    (hload : loadOrBuildStore env.imgObjs env.storeExists env.storedRecords
      env.diskImages = Except.ok s)
    (hdf : toDataFrame s.reps = Except.ok df)
    (hfaces : env.sourceObjs = face :: rest)
    (hdf2 : df = r :: tl)
    (hdim : face.embedding.length = r.embedding.length) :
    find metric env = Except.error (FindErr.invalidMetric metric) := by
  have hcd : computeDistance metric env.cosineD env.euclideanD env.l2norm
      r.embedding face.embedding = Except.error (FindErr.invalidMetric metric) := by
    unfold computeDistance
    rw [if_neg hm1, if_neg hm2, if_neg hm3]
  have hds : computeDistances metric env.cosineD env.euclideanD env.l2norm
      face.embedding df = Except.error (FindErr.invalidMetric metric) := by
    rw [hdf2]
    unfold computeDistances
    rw [if_neg (not_not_intro hdim), hcd]
  have hmf : matchFace metric env.cosineD env.euclideanD env.l2norm
      env.threshold df face = Except.error (FindErr.invalidMetric metric) := by
    unfold matchFace
    rw [hds]
  unfold find
  rw [hdir, if_pos rfl, hload]
  dsimp only
  rw [hdf]
  dsimp only
  rw [hfaces]
  unfold matchTables
  rw [hmf]

/-- Witness for claim C8 (amended) at a concrete environment with one stored
record and one query face of matching embedding length. -/
theorem find_invalidMetric_nonempty_witness :
    ("manhattan" ≠ "cosine" ∧ "manhattan" ≠ "euclidean"
      ∧ "manhattan" ≠ "euclidean_l2") ∧
    loadOrBuildStore metricEnv.imgObjs metricEnv.storeExists
        metricEnv.storedRecords metricEnv.diskImages
      = Except.ok ⟨[], [], [sampleRec "A" [0]], none⟩ ∧
    toDataFrame [sampleRec "A" [0]] = Except.ok [⟨"A", [0], 0, 0, 0, 0⟩] ∧
    metricEnv.sourceObjs = [sampleFace [0]] ∧
    find "manhattan" metricEnv = Except.error (FindErr.invalidMetric "manhattan") :=
  ⟨by decide, rfl, rfl, rfl,
   find_invalidMetric_nonempty "manhattan" metricEnv
     ⟨[], [], [sampleRec "A" [0]], none⟩ [⟨"A", [0], 0, 0, 0, 0⟩]
     (sampleFace [0]) [] ⟨"A", [0], 0, 0, 0, 0⟩ []
     rfl (by decide) (by decide) (by decide) rfl rfl rfl rfl rfl⟩

/-- The dataframe constructor only ever fails with its own schema error. -/
theorem toDataFrame_error_shape (rs : List RawRecord) (e : FindErr)
    (h : toDataFrame rs = Except.error e) : e = FindErr.dataFrameError := by
  induction rs with
  | nil => exact absurd h (by simp [toDataFrame])
  | cons r rest ih =>
    unfold toDataFrame at h
    rcases hp : parseRep r with _ | p
    · rw [hp] at h
      cases h
      rfl
    · rw [hp] at h
      dsimp only at h
      rcases hrest : toDataFrame rest with e' | ps
      · rw [hrest] at h
        cases h
        exact ih hrest
      · rw [hrest] at h
        exact absurd h (by simp)

/-- The metric dispatch only ever fails with the invalid-metric error. -/
theorem computeDistance_error_shape (metric : String)
    (dc de : List ℚ → List ℚ → ℚ) (l2n : List ℚ → List ℚ) (s t : List ℚ)
    (e : FindErr) (h : computeDistance metric dc de l2n s t = Except.error e) :
    e = FindErr.invalidMetric metric := by
  unfold computeDistance at h
  by_cases h1 : metric = "cosine"
  · rw [if_pos h1] at h
    exact absurd h (by simp)
  · rw [if_neg h1] at h
    by_cases h2 : metric = "euclidean"
    · rw [if_pos h2] at h
      exact absurd h (by simp)
    · rw [if_neg h2] at h
      by_cases h3 : metric = "euclidean_l2"
      · rw [if_pos h3] at h
        exact absurd h (by simp)
      · rw [if_neg h3] at h
        cases h
        rfl

/-- The distance loop only ever fails with the invalid-metric error or a
dimension mismatch. -/
theorem computeDistances_error_shape (metric : String)
    (dc de : List ℚ → List ℚ → ℚ) (l2n : List ℚ → List ℚ) (target : List ℚ)
    (reps : List Rep) (e : FindErr)
    (h : computeDistances metric dc de l2n target reps = Except.error e) :
    e = FindErr.invalidMetric metric ∨ ∃ a b, e = FindErr.dimensionMismatch a b := by
  induction reps with
  | nil => exact absurd h (by simp [computeDistances])
  | cons inst rest ih =>
    unfold computeDistances at h
    by_cases hlen : target.length ≠ inst.embedding.length
    · rw [if_pos hlen] at h
      cases h
      exact Or.inr ⟨_, _, rfl⟩
    · rw [if_neg hlen] at h
      rcases hcd : computeDistance metric dc de l2n inst.embedding target with e' | d
      · rw [hcd] at h
        cases h
        exact Or.inl (computeDistance_error_shape _ _ _ _ _ _ _ hcd)
      · rw [hcd] at h
        dsimp only at h
        rcases hrec : computeDistances metric dc de l2n target rest with e' | ds
        · rw [hrec] at h
          cases h
          exact ih hrec
        · rw [hrec] at h
          exact absurd h (by simp)

/-- A per-face match only ever fails with the invalid-metric error or a
dimension mismatch. -/
theorem matchFace_error_shape (metric : String)
    (dc de : List ℚ → List ℚ → ℚ) (l2n : List ℚ → List ℚ) (thr : ℚ)
    (reps : List Rep) (face : FaceObj) (e : FindErr)
    (h : matchFace metric dc de l2n thr reps face = Except.error e) :
    e = FindErr.invalidMetric metric ∨ ∃ a b, e = FindErr.dimensionMismatch a b := by
  unfold matchFace at h
  rcases hds : computeDistances metric dc de l2n face.embedding reps with e' | ds
  · rw [hds] at h
    cases h
    exact computeDistances_error_shape _ _ _ _ _ _ _ hds
  · rw [hds] at h
    exact absurd h (by simp)

/-- The face loop only ever fails with the invalid-metric error or a
dimension mismatch. -/
theorem matchTables_error_shape (metric : String)
    (dc de : List ℚ → List ℚ → ℚ) (l2n : List ℚ → List ℚ) (thr : ℚ)
    (reps : List Rep) (faces : List FaceObj) (e : FindErr)
    (h : matchTables metric dc de l2n thr reps faces = Except.error e) :
    e = FindErr.invalidMetric metric ∨ ∃ a b, e = FindErr.dimensionMismatch a b := by
  induction faces with
  | nil => exact absurd h (by simp [matchTables])
  | cons face rest ih =>
    unfold matchTables at h
    rcases hf : matchFace metric dc de l2n thr reps face with e' | table
    · rw [hf] at h
      cases h
      exact matchFace_error_shape _ _ _ _ _ _ _ _ hf
    · rw [hf] at h
      dsimp only at h
      rcases hr : matchTables metric dc de l2n thr reps rest with e' | ts
      · rw [hr] at h
        cases h
        exact ih hr
      · rw [hr] at h
        exact absurd h (by simp)

/-- The incremental sync only ever fails with the empty-database error. -/
theorem syncStore_error_shape (imgObjs : String → List FaceObj)
    (records : List RawRecord) (disk : List String) (e : FindErr)
    (h : syncStore imgObjs records disk = Except.error e) :
    e = FindErr.emptyDatabase := by
  unfold syncStore at h
  by_cases hc : (!(storeNewbies records disk).isEmpty
      || !(storeOldies records disk).isEmpty) = true
  · rw [if_pos hc] at h
    by_cases hre : (syncReps imgObjs records disk).isEmpty = true
    · rw [if_pos hre] at h
      cases h
      rfl
    · rw [if_neg hre] at h
      exact absurd h (by simp)
  · rw [if_neg hc] at h
    exact absurd h (by simp)

/-- The incremental sync fails exactly when at least one addition or removal
occurred and the record list ended up empty. -/
theorem syncStore_error_iff (imgObjs : String → List FaceObj)
    (records : List RawRecord) (disk : List String) :
    syncStore imgObjs records disk = Except.error FindErr.emptyDatabase ↔
      ((storeNewbies records disk ≠ [] ∨ storeOldies records disk ≠ [])
        ∧ syncReps imgObjs records disk = []) := by
  unfold syncStore
  by_cases hc : (!(storeNewbies records disk).isEmpty
      || !(storeOldies records disk).isEmpty) = true
  · rw [if_pos hc]
    by_cases hre : (syncReps imgObjs records disk).isEmpty = true
    · rw [if_pos hre]
      simp only [Bool.or_eq_true, Bool.not_eq_true'] at hc
      constructor
      · intro _
        refine ⟨?_, List.isEmpty_iff.mp hre⟩
        rcases hc with h | h
        · exact Or.inl (fun hnil => by rw [hnil] at h; simp at h)
        · exact Or.inr (fun hnil => by rw [hnil] at h; simp at h)
      · intro _
        rfl
    · rw [if_neg hre]
      constructor
      · intro h
        simp at h
      · rintro ⟨_, hrep⟩
        exact absurd (List.isEmpty_iff.mpr hrep) hre
  · rw [if_neg hc]
    simp only [Bool.or_eq_true, Bool.not_eq_true', not_or, Bool.not_eq_false] at hc
    constructor
    · intro h
      simp at h
    · rintro ⟨hor, _⟩
      rcases hor with h | h
      · exact absurd (List.isEmpty_iff.mp hc.1) h
      · exact absurd (List.isEmpty_iff.mp hc.2) h

/-- If there is at least one addition and every disk image yields a face,
the synchronized record list cannot be empty. -/
theorem syncReps_ne_nil_of_newbies (imgObjs : String → List FaceObj)
    (records : List RawRecord) (disk : List String)
    (hfaces : ∀ p ∈ disk, imgObjs p ≠ [])
    (hnew : storeNewbies records disk ≠ []) :
    syncReps imgObjs records disk ≠ [] := by
  obtain ⟨n, hn⟩ := List.exists_mem_of_ne_nil _ hnew
  have hnd : n ∈ disk := ((mem_storeNewbies _ _ _).mp hn).1
  obtain ⟨f, hf⟩ := List.exists_mem_of_ne_nil _ (hfaces n hnd)
  intro hnil
  have hmem : mkInstance n f ∈ syncReps imgObjs records disk := by
    rw [syncReps_eq, List.mem_filter]
    refine ⟨List.mem_append.mpr
      (Or.inr ((mem_find_bulk_embeddings _ _ _).mpr ⟨n, hn, f, hf, rfl⟩)), ?_⟩
    have hnold : Field.str n ∉ storeOldies records disk := by
      rw [mem_storeOldies]
      rintro ⟨_, hx⟩
      exact hx (List.mem_map_of_mem _ hnd)
    simp [rawIdent_mkInstance, hnold]
  rw [hnil] at hmem
  cases hmem

/-- Bulk-built records always fit the six-column schema, so the dataframe
construction over them succeeds. -/
theorem toDataFrame_bulk_ok (imgObjs : String → List FaceObj)
    (es : List String) :
    ∃ ps, toDataFrame (find_bulk_embeddings imgObjs es) = Except.ok ps := by
  suffices h : ∀ rs : List RawRecord, (∀ r ∈ rs, (parseRep r).isSome)
      → ∃ ps, toDataFrame rs = Except.ok ps by
    refine h _ ?_
    intro r hr
    obtain ⟨e, _, f, _, rfl⟩ := (mem_find_bulk_embeddings _ _ _).mp hr
    rfl
  intro rs
  induction rs with
  | nil => exact fun _ => ⟨[], rfl⟩
  | cons r rest ih =>
    intro hall
    obtain ⟨p, hp⟩ := Option.isSome_iff_exists.mp (hall r (List.mem_cons_self _ _))
    obtain ⟨ps, hps⟩ := ih (fun x hx => hall x (List.mem_cons_of_mem _ hx))
    refine ⟨p :: ps, ?_⟩
    unfold toDataFrame
    rw [hp]
    dsimp only
    rw [hps]

/-- Claim C5: assuming a valid (or absent) store file, every disk image
yielding at least one face, `find` fails with EmptyDatabaseError exactly
when either no store file exists and the directory enumeration finds zero
image files, or a store file exists, at least one removal but no addition
occurred, and the store is empty after the removals. -/
theorem find_emptyDatabase_iff (metric : String) (env : FindEnv)
    (hdir : env.dbPathIsDir = true)
    (hvalid : env.storeExists = true → validateStore env.storedRecords = Except.ok ())
    (hfaces : ∀ p ∈ env.diskImages, env.imgObjs p ≠ []) :
    find metric env = Except.error FindErr.emptyDatabase ↔
      ((env.storeExists = false ∧ env.diskImages = [])
       ∨ (env.storeExists = true
          ∧ storeNewbies env.storedRecords env.diskImages = []
          ∧ storeOldies env.storedRecords env.diskImages ≠ []
          ∧ syncReps env.imgObjs env.storedRecords env.diskImages = [])) := by
  unfold find
  rw [hdir, if_pos rfl]
  unfold loadOrBuildStore
  rcases hse : env.storeExists with _ | _
  · rw [if_neg (by simp)]
    by_cases hd : env.diskImages.isEmpty = true
    · rw [if_pos hd]
      dsimp only
      constructor
      · intro _
        exact Or.inl ⟨rfl, List.isEmpty_iff.mp hd⟩
      · intro _
        rfl
    · rw [if_neg hd]
      dsimp only
      have hR : ¬((false = false ∧ env.diskImages = [])
          ∨ (false = true
             ∧ storeNewbies env.storedRecords env.diskImages = []
             ∧ storeOldies env.storedRecords env.diskImages ≠ []
             ∧ syncReps env.imgObjs env.storedRecords env.diskImages = [])) := by
        rintro (⟨_, h2⟩ | ⟨h1, _⟩)
        · exact hd (List.isEmpty_iff.mpr h2)
        · exact absurd h1 (by simp)
      obtain ⟨ps, hps⟩ := toDataFrame_bulk_ok env.imgObjs env.diskImages
      rw [hps]
      dsimp only
      rcases htab : matchTables metric env.cosineD env.euclideanD env.l2norm
          env.threshold ps env.sourceObjs with e | ts
      · dsimp only
        constructor
        · intro hEq
          rcases matchTables_error_shape _ _ _ _ _ _ _ _ htab with h | ⟨a, b, h⟩
          · rw [h] at hEq
            exact absurd hEq (by simp)
          · rw [h] at hEq
            exact absurd hEq (by simp)
        · intro hRHS
          exact absurd hRHS hR
      · dsimp only
        constructor
        · intro hEq
          exact absurd hEq (by simp)
        · intro hRHS
          exact absurd hRHS hR
  · rw [if_pos rfl, hvalid hse]
    dsimp only
    rcases hsync : syncStore env.imgObjs env.storedRecords env.diskImages with e | s
    · have he := syncStore_error_shape _ _ _ _ hsync
      subst he
      dsimp only
      constructor
      · intro _
        obtain ⟨hor, hreps⟩ :=
          (syncStore_error_iff env.imgObjs env.storedRecords env.diskImages).mp hsync
        have hn : storeNewbies env.storedRecords env.diskImages = [] := by
          by_contra hne
          exact syncReps_ne_nil_of_newbies _ _ _ hfaces hne hreps
        have ho : storeOldies env.storedRecords env.diskImages ≠ [] := by
          rcases hor with h | h
          · exact absurd hn h
          · exact h
        exact Or.inr ⟨rfl, hn, ho, hreps⟩
      · intro _
        rfl
    · have hR : ¬((true = false ∧ env.diskImages = [])
          ∨ (true = true
             ∧ storeNewbies env.storedRecords env.diskImages = []
             ∧ storeOldies env.storedRecords env.diskImages ≠ []
             ∧ syncReps env.imgObjs env.storedRecords env.diskImages = [])) := by
        rintro (⟨h1, _⟩ | ⟨_, _, ho, hreps⟩)
        · exact absurd h1 (by simp)
        · have herr := (syncStore_error_iff env.imgObjs env.storedRecords
            env.diskImages).mpr ⟨Or.inr ho, hreps⟩
          rw [hsync] at herr
          exact absurd herr (by simp)
      dsimp only
      rcases hdf : toDataFrame s.reps with e | df
      · dsimp only
        have he := toDataFrame_error_shape _ _ hdf
        subst he
        constructor
        · intro hEq
          exact absurd hEq (by simp)
        · intro hRHS
          exact absurd hRHS hR
      · dsimp only
        rcases htab : matchTables metric env.cosineD env.euclideanD env.l2norm
            env.threshold df env.sourceObjs with e | ts
        · dsimp only
          constructor
          · intro hEq
            rcases matchTables_error_shape _ _ _ _ _ _ _ _ htab with h | ⟨a, b, h⟩
            · rw [h] at hEq
              exact absurd hEq (by simp)
            · rw [h] at hEq
              exact absurd hEq (by simp)
          · intro hRHS
            exact absurd hRHS hR
        · dsimp only
          constructor
          · intro hEq
            exact absurd hEq (by simp)
          · intro hRHS
            exact absurd hRHS hR

/-- Witness for claim C5 at a concrete environment whose store holds one
identity while the directory holds no image any more. -/
theorem find_emptyDatabase_iff_witness :
    validateStore removalEnv.storedRecords = Except.ok () ∧
    find "cosine" removalEnv = Except.error FindErr.emptyDatabase ∧
    (find "cosine" removalEnv = Except.error FindErr.emptyDatabase ↔
      ((removalEnv.storeExists = false ∧ removalEnv.diskImages = [])
       ∨ (removalEnv.storeExists = true
          ∧ storeNewbies removalEnv.storedRecords removalEnv.diskImages = []
          ∧ storeOldies removalEnv.storedRecords removalEnv.diskImages ≠ []
          ∧ syncReps removalEnv.imgObjs removalEnv.storedRecords
              removalEnv.diskImages = []))) :=
  ⟨rfl, rfl,
   find_emptyDatabase_iff "cosine" removalEnv rfl (fun _ => rfl)
     (fun p hp => absurd hp (List.not_mem_nil p))⟩

end Recognition
